import Mathlib

/-!
Shallow embedding of the hopes dashboard core (src/utils/data.ts and the
project-analytics page). JavaScript numbers are idealized as exact rationals;
the special IEEE values NaN, plus infinity and minus infinity are modelled
explicitly where a claim depends on them (risk classification). JS
`Math.round` is embedded by its specified semantics: round half toward plus
infinity, i.e. `fun x => Int.floor (x + 1/2)`.
-/

namespace Hopes

/-- Threshold configuration object. The TS interface declares
`policyMakerThresholds: { HMPI: number }` but `updateProjectThreshold` accepts
an arbitrary `object` and stores it wholesale, so the stored value is modelled
as a JSON-style association list of numeric fields. -/
def ThresholdObj : Type := List (String × ℚ)

instance : DecidableEq ThresholdObj := by
  unfold ThresholdObj
  infer_instance

/-- Embeds interface Project (src/utils/data.ts lines 4-14). -/
structure Project where
  id : String
  name : String
  description : String
  district : String
  city : String
  createdAt : String
  policyMakerThresholds : ThresholdObj
deriving DecidableEq

/-- Embeds interface Sample (src/utils/data.ts lines 16-29). -/
structure Sample where
  id : String
  projectId : String
  sampleId : String
  metal : String
  Si : ℚ
  Ii : ℚ
  Mi : ℚ
  latitude : ℚ
  longitude : ℚ
  district : String
  city : String
  date : String
deriving DecidableEq

inductive Severity where
  | low
  | medium
  | high
deriving DecidableEq

/-- Embeds interface Alert (src/utils/data.ts lines 31-39). -/
structure Alert where
  id : String
  projectId : String
  sampleId : String
  message : String
  severity : Severity
  acknowledged : Bool
  createdAt : String
deriving DecidableEq

/-- Embeds interface Policy (src/utils/data.ts lines 41-48). -/
structure Policy where
  id : String
  name : String
  metal : String
  threshold : ℚ
  createdBy : String
  createdAt : String
deriving DecidableEq

/-! ## Scoring engine -/

/-- JS `Math.round` on finite values: round half toward plus infinity. -/
def jsRound (x : ℚ) : ℤ := ⌊x + 1/2⌋

/-- The raw index `(Si / Ii) * Mi * 100` computed on line 136 before
rounding. -/
def rawIndex (s : Sample) : ℚ := s.Si / s.Ii * s.Mi * 100

/-- Embeds calculateHMPI (src/utils/data.ts lines 134-138):
`Math.round(hmpi * 100) / 100` applied to the raw index. -/
def calculateHMPI (s : Sample) : ℚ := (jsRound (rawIndex s * 100) : ℚ) / 100

/-- Spec-side rounding rule, written from the words of the spec: round half
away from zero at the hundredths digit. Used only to compare the spec rule
with the code rule `jsRound`. -/
def roundHalfAwayFromZero (x : ℚ) : ℤ :=
  if 0 ≤ x then ⌊x + 1/2⌋ else -⌊-x + 1/2⌋

/-- Spec-side two-decimal rounding of a value, half away from zero. -/
def specRound2 (x : ℚ) : ℚ := (roundHalfAwayFromZero (x * 100) : ℚ) / 100

/-- Idealized JS number for the risk classifier: a finite rational or one of
the IEEE special values. -/
inductive JSNum where
  | finite (q : ℚ)
  | nan
  | posInf
  | negInf
deriving DecidableEq

/-- IEEE semantics of the JS comparison `x >= c` for a finite literal `c`:
NaN fails every comparison, plus infinity exceeds every finite bound, minus
infinity satisfies none. -/
def jsGe (x : JSNum) (c : ℚ) : Bool :=
  match x with
  | .finite q => decide (c ≤ q)
  | .nan => false
  | .posInf => true
  | .negInf => false

/-- Result record of getRiskLevel: `{ level, color }`. -/
structure RiskInfo where
  level : String
  color : String
deriving DecidableEq

/-- Embeds getRiskLevel (src/utils/data.ts lines 141-147). -/
def getRiskLevel (x : JSNum) : RiskInfo :=
  if jsGe x 100 then ⟨"Very High Risk", "#DC2626"⟩
  else if jsGe x 50 then ⟨"High Risk", "#EA580C"⟩
  else if jsGe x 25 then ⟨"Moderate Risk", "#D97706"⟩
  else if jsGe x 10 then ⟨"Low Risk", "#65A30D"⟩
  else ⟨"Safe", "#059669"⟩

/-! ## Aggregation layer (project analytics page) -/

/-- A sample annotated with its computed index and risk level, as built by
`samplesWithHMPI` in the analytics page (lines 73-77): the sample spread plus
`hmpi` and `riskLevel` fields. -/
structure ScoredSample where
  sample : Sample
  hmpi : ℚ
  riskLevel : RiskInfo
deriving DecidableEq

/-- Embeds the `samplesWithHMPI` mapping (analytics page lines 73-77). -/
def samplesWithHMPI (l : List Sample) : List ScoredSample :=
  l.map fun s => ⟨s, calculateHMPI s, getRiskLevel (.finite (calculateHMPI s))⟩

/-- The fixed ordered level list `riskLevels` (analytics page line 85). -/
def riskLevels : List String :=
  ["Safe", "Low Risk", "Moderate Risk", "High Risk", "Very High Risk"]

/-- Count of scored samples at a given level. The page builds the record
`riskDistribution` by a reduce that increments `acc[level]`; the resulting
lookup `riskDistribution[level] || 0` is exactly this count. -/
def riskDistribution (l : List Sample) (level : String) : ℕ :=
  ((samplesWithHMPI l).filter fun s => s.riskLevel.level == level).length

/-- One entry of the risk pie chart data: `{ name, value, color }`. -/
structure RiskChartEntry where
  name : String
  value : ℕ
  color : String
deriving DecidableEq

/-- Embeds `riskChartData` (analytics page lines 86-90): for each fixed level,
the count and the color of the first scored sample at that level, with the
JS fallback `|| '#666'` when no sample has that level. -/
def riskChartData (l : List Sample) : List RiskChartEntry :=
  riskLevels.map fun level =>
    ⟨level, riskDistribution l level,
      (((samplesWithHMPI l).find? fun s => s.riskLevel.level == level).map
        fun s => s.riskLevel.color).getD "#666"⟩

/-- One entry of the metal bar chart data: `{ name, count, avgHMPI }`. -/
structure MetalChartEntry where
  name : String
  count : ℕ
  avgHMPI : ℚ
deriving DecidableEq

/-- Distinct elements of a list in first-occurrence order. This is the key
order of the JS object built by the `metalDistribution` reduce (insertion
order of string keys), which `Object.entries` then iterates. -/
def firstOccurrences : List String → List String
  | [] => []
  | m :: rest => m :: firstOccurrences (rest.filter fun x => x != m)
termination_by l => l.length
decreasing_by
  simp only [List.length_cons]
  exact Nat.lt_succ_of_le (List.length_filter_le _ _)

/-- Embeds `metalChartData` (analytics page lines 92-103): one entry per
distinct metal, carrying the group size and the group sum of `hmpi` divided by
the group size. -/
def metalChartData (l : List Sample) : List MetalChartEntry :=
  (firstOccurrences ((samplesWithHMPI l).map fun s => s.sample.metal)).map
    fun m =>
      let grp := (samplesWithHMPI l).filter fun s => s.sample.metal == m
      ⟨m, grp.length, (grp.map fun s => s.hmpi).sum / (grp.length : ℚ)⟩

/-- One entry of the time series data: `{ date, hmpi }`. -/
structure TimePoint where
  date : String
  hmpi : ℚ
deriving DecidableEq

/-- Splits a character list at every dash, keeping empty chunks. -/
def splitDash : List Char → List (List Char)
  | [] => [[]]
  | c :: rest =>
    if c = '-' then [] :: splitDash rest
    else
      match splitDash rest with
      | [] => [[c]]
      | chunk :: chunks => (c :: chunk) :: chunks

/-- Value of a decimal digit character. -/
def digitVal (c : Char) : Option ℕ :=
  if c = '0' then some 0 else if c = '1' then some 1
  else if c = '2' then some 2 else if c = '3' then some 3
  else if c = '4' then some 4 else if c = '5' then some 5
  else if c = '6' then some 6 else if c = '7' then some 7
  else if c = '8' then some 8 else if c = '9' then some 9 else none

/-- Reads a nonempty decimal digit chunk as a natural number. -/
def digitsVal : List Char → Option ℕ
  | [] => none
  | cs => go 0 cs
where
  go (acc : ℕ) : List Char → Option ℕ
    | [] => some acc
    | c :: rest =>
      match digitVal c with
      | none => none
      | some d => go (acc * 10 + d) rest

/-- Numeric key of an ISO `yyyy-mm-dd` date string. Models
`new Date(s).getTime()` up to a strictly monotone reindexing: on valid
calendar dates both keys order pairs identically, and the sort comparator
only inspects the sign of key differences. -/
def dateKey (s : String) : ℤ :=
  match (splitDash s.toList).map digitsVal with
  | [some y, some m, some d] => (y * 10000 + m * 100 + d : ℤ)
  | _ => 0

/-- Embeds `timeSeriesData` (analytics page lines 105-110): stable ascending
sort of the scored samples by parsed date (JS `Array.prototype.sort` is
specified stable; the comparator returns the difference of the parsed times),
then projection to `{ date, hmpi }`. -/
def timeSeriesData (l : List Sample) : List TimePoint :=
  ((samplesWithHMPI l).mergeSort fun a b =>
      decide (dateKey a.sample.date ≤ dateKey b.sample.date)).map
    fun s => ⟨s.sample.date, s.hmpi⟩

/-! ## Data access layer -/

/-- Outcome of one supabase round trip: either rows or an error object,
mirroring the destructured `{ data, error }` response. -/
inductive StoreResult (α : Type) where
  | ok (rows : List α)
  | err (msg : String)
deriving DecidableEq

/-- Embeds fetchProjects (src/utils/data.ts lines 51-58) as a function of the
store response: the returned list together with the console log lines. The
return type has no error channel — the function never throws. -/
def fetchProjects (r : StoreResult Project) : List Project × List String :=
  match r with
  | .ok rows => (rows, [])
  | .err e => ([], ["Error fetching projects: " ++ e])

/-- Embeds fetchSamples (src/utils/data.ts lines 60-67). -/
def fetchSamples (r : StoreResult Sample) : List Sample × List String :=
  match r with
  | .ok rows => (rows, [])
  | .err e => ([], ["Error fetching samples: " ++ e])

/-- Embeds fetchAlerts (src/utils/data.ts lines 69-76). -/
def fetchAlerts (r : StoreResult Alert) : List Alert × List String :=
  match r with
  | .ok rows => (rows, [])
  | .err e => ([], ["Error fetching alerts: " ++ e])

/-- Embeds fetchPolicies (src/utils/data.ts lines 78-85). -/
def fetchPolicies (r : StoreResult Policy) : List Policy × List String :=
  match r with
  | .ok rows => (rows, [])
  | .err e => ([], ["Error fetching policies: " ++ e])

/-- Embeds createProject (src/utils/data.ts lines 87-94): on a store error the
function logs and throws the error (left component `Except.error`); otherwise
it returns the inserted rows reported by `.select()`. -/
def createProject (r : StoreResult Project) :
    Except String (List Project) × List String :=
  match r with
  | .ok rows => (.ok rows, [])
  | .err e => (.error e, ["Error creating project: " ++ e])

/-- Embeds createSample (src/utils/data.ts lines 96-103). -/
def createSample (r : StoreResult Sample) :
    Except String (List Sample) × List String :=
  match r with
  | .ok rows => (.ok rows, [])
  | .err e => (.error e, ["Error creating sample: " ++ e])

/-- Embeds acknowledgeAlert (src/utils/data.ts lines 105-112): the update
round trip either errors (logged and thrown) or returns the updated rows. -/
def acknowledgeAlert (r : StoreResult Alert) :
    Except String (List Alert) × List String :=
  match r with
  | .ok rows => (.ok rows, [])
  | .err e => (.error e, ["Error acknowledging alert: " ++ e])

/-- Embeds createPolicy (src/utils/data.ts lines 114-121). -/
def createPolicy (r : StoreResult Policy) :
    Except String (List Policy) × List String :=
  match r with
  | .ok rows => (.ok rows, [])
  | .err e => (.error e, ["Error creating policy: " ++ e])

/-- Embeds updateProjectThreshold (src/utils/data.ts lines 123-130) as a
function of the store response. -/
def updateProjectThreshold (r : StoreResult Project) :
    Except String (List Project) × List String :=
  match r with
  | .ok rows => (.ok rows, [])
  | .err e => (.error e, ["Error updating project threshold: " ++ e])

/-- Embeds the store-side effect of line 106,
`update({ acknowledged: true }).eq('id', alertId)`: every alert row whose id
matches gets its acknowledged flag set to true; every other row is kept. -/
def acknowledgeAlertState (tbl : List Alert) (alertId : String) : List Alert :=
  tbl.map fun a => if a.id = alertId then { a with acknowledged := true } else a

/-- Embeds the store-side effect of line 124,
`update({ "policyMakerThresholds": thresholds }).eq('id', projectId)`: the
whole threshold object of every matching project row is replaced by the given
object; every other row is kept. -/
def updateProjectThresholdState (tbl : List Project) (projectId : String)
    (t : ThresholdObj) : List Project :=
  tbl.map fun p =>
    if p.id = projectId then { p with policyMakerThresholds := t } else p

/-! ## Concrete samples used in witnesses and counterexamples -/

/-- The sample of the spec example: `{Si:0.09, Ii:0.3, Mi:0.7}` with the
template row metadata. -/
def specExampleSample : Sample :=
  ⟨"s1", "p1", "GNG-008", "Lead", 0.09, 0.3, 0.7, 25.3176, 82.9739,
    "Varanasi", "Varanasi", "2025-01-20"⟩

/-- A sample agreeing with `specExampleSample` on Si, Ii and Mi and differing
on every other field. -/
def specExampleSampleRelabeled : Sample :=
  ⟨"zz", "p9", "ZZZ-999", "Arsenic", 0.09, 0.3, 0.7, 1, 2,
    "Delhi", "Delhi", "2030-12-31"⟩

/-- A sample whose raw index is exactly 21.005, the half-way case named by the
spec. -/
def halfUpSample : Sample :=
  ⟨"s2", "p1", "GNG-009", "Lead", 21005, 100000, 1, 0, 0,
    "Varanasi", "Varanasi", "2025-01-21"⟩

/-- A sample whose raw index is exactly -21.005: a half-way case on the
negative side, where round-half-up and round-half-away-from-zero differ. -/
def negHalfSample : Sample :=
  ⟨"s3", "p1", "GNG-010", "Lead", -21005, 100000, 1, 0, 0,
    "Varanasi", "Varanasi", "2025-01-22"⟩

/-! ## C1: rounding rule of calculateHMPI -/

/-- C1 (amended): for every sample with `Ii ≠ 0` whose raw index
`(Si / Ii) * Mi * 100` is nonnegative, `calculateHMPI` returns the raw index
rounded to 2 decimal places half away from zero, because JS `Math.round`
(round half toward plus infinity) agrees with round-half-away-from-zero on
nonnegative arguments. -/
theorem calculateHMPI_eq_specRound2 (s : Sample) (_hIi : s.Ii ≠ 0)
    (hpos : 0 ≤ rawIndex s) : calculateHMPI s = specRound2 (rawIndex s) := by
  have h100 : 0 ≤ rawIndex s * 100 := by positivity
  unfold calculateHMPI specRound2 roundHalfAwayFromZero jsRound
  rw [if_pos h100]

/-- C1 witness: at the spec example sample the hypotheses hold, the theorem
applies, and the value is 21; at the half-way sample with raw index 21.005
the value is 21.01. -/
theorem calculateHMPI_eq_specRound2_witness :
    calculateHMPI specExampleSample = 21 ∧
    calculateHMPI halfUpSample = 2101 / 100 :=
  ⟨(calculateHMPI_eq_specRound2 specExampleSample
      (by norm_num [specExampleSample])
      (by norm_num [rawIndex, specExampleSample])).trans
    (by norm_num [specRound2, roundHalfAwayFromZero, rawIndex,
      specExampleSample]),
   (calculateHMPI_eq_specRound2 halfUpSample
      (by norm_num [halfUpSample])
      (by norm_num [rawIndex, halfUpSample])).trans
    (by norm_num [specRound2, roundHalfAwayFromZero, rawIndex, halfUpSample])⟩

/-- C1 counterexample: the sample with Si = -21005, Ii = 100000, Mi = 1 has
`Ii ≠ 0` and raw index exactly -21.005, but the code returns -21.00 (JS
`Math.round` rounds -2100.5 half toward plus infinity to -2100) while
round-half-away-from-zero gives -21.01. -/
theorem calculateHMPI_neg_half_counterexample :
    negHalfSample.Ii ≠ 0 ∧
    calculateHMPI negHalfSample = -21 ∧
    specRound2 (rawIndex negHalfSample) = -(2101 / 100) ∧
    calculateHMPI negHalfSample ≠ specRound2 (rawIndex negHalfSample) := by
  refine ⟨by norm_num [negHalfSample], ?_, ?_, ?_⟩ <;>
    norm_num [calculateHMPI, specRound2, roundHalfAwayFromZero, jsRound,
      rawIndex, negHalfSample]

/-! ## C2: risk level classification -/

/-- C2 (amended): `getRiskLevel` realizes the descending inclusive threshold
table on finite inputs (negative values fall to Safe); NaN and minus infinity
fail every comparison and resolve to Safe; plus infinity satisfies the first
comparison and resolves to Very High Risk, not Safe. -/
theorem getRiskLevel_table (q : ℚ) :
    (100 ≤ q → getRiskLevel (.finite q) = ⟨"Very High Risk", "#DC2626"⟩) ∧
    (50 ≤ q → q < 100 → getRiskLevel (.finite q) = ⟨"High Risk", "#EA580C"⟩) ∧
    (25 ≤ q → q < 50 →
      getRiskLevel (.finite q) = ⟨"Moderate Risk", "#D97706"⟩) ∧
    (10 ≤ q → q < 25 → getRiskLevel (.finite q) = ⟨"Low Risk", "#65A30D"⟩) ∧
    (q < 10 → getRiskLevel (.finite q) = ⟨"Safe", "#059669"⟩) ∧
    getRiskLevel .nan = ⟨"Safe", "#059669"⟩ ∧
    getRiskLevel .negInf = ⟨"Safe", "#059669"⟩ ∧
    getRiskLevel .posInf = ⟨"Very High Risk", "#DC2626"⟩ := by
  refine ⟨fun h1 => ?_, fun h1 h2 => ?_, fun h1 h2 => ?_, fun h1 h2 => ?_,
    fun h1 => ?_, rfl, rfl, rfl⟩ <;>
    simp only [getRiskLevel, jsGe, decide_eq_true_eq] <;>
    split_ifs <;> first | rfl | linarith

/-- C2 witness: at the boundary input 100 the first row of the table applies
and the theorem yields Very High Risk. -/
theorem getRiskLevel_table_witness :
    getRiskLevel (.finite 100) = ⟨"Very High Risk", "#DC2626"⟩ :=
  (getRiskLevel_table 100).1 (le_refl 100)

/-- C2 counterexample: plus infinity (the index produced by a positive Si
divided by Ii = 0) is a non-finite input that classifies as Very High Risk,
refuting the claim that every non-finite value resolves to Safe. -/
theorem getRiskLevel_posInf_counterexample :
    getRiskLevel JSNum.posInf = ⟨"Very High Risk", "#DC2626"⟩ ∧
    getRiskLevel JSNum.posInf ≠ ⟨"Safe", "#059669"⟩ := by
  exact ⟨rfl, by decide⟩

/-! ## C10: calculateHMPI reads only Si, Ii and Mi -/

/-- C10: any two samples agreeing on Si, Ii and Mi get the same index from
`calculateHMPI`, whatever their other fields. -/
theorem calculateHMPI_depends_only_on_Si_Ii_Mi (s t : Sample)
    (hSi : s.Si = t.Si) (hIi : s.Ii = t.Ii) (hMi : s.Mi = t.Mi) :
    calculateHMPI s = calculateHMPI t := by
  unfold calculateHMPI rawIndex
  rw [hSi, hIi, hMi]

/-- C10 witness: the spec example sample and its fully relabeled variant
(different id, project, metal, coordinates, district, city and date) share
the same index. -/
theorem calculateHMPI_depends_only_on_Si_Ii_Mi_witness :
    calculateHMPI specExampleSample = calculateHMPI specExampleSampleRelabeled :=
  calculateHMPI_depends_only_on_Si_Ii_Mi specExampleSample
    specExampleSampleRelabeled rfl rfl rfl

/-! ## C6: fetch-all operations never throw -/

/-- C6: each fetch-all operation returns a plain list (its type carries no
error channel, so it cannot throw): on a store error it returns the empty
list and logs the error message, and on success it returns the fetched rows
with no log. -/
theorem fetchAll_never_throws :
    (∀ e, fetchProjects (.err e) = ([], ["Error fetching projects: " ++ e])) ∧
    (∀ rows, fetchProjects (.ok rows) = (rows, [])) ∧
    (∀ e, fetchSamples (.err e) = ([], ["Error fetching samples: " ++ e])) ∧
    (∀ rows, fetchSamples (.ok rows) = (rows, [])) ∧
    (∀ e, fetchAlerts (.err e) = ([], ["Error fetching alerts: " ++ e])) ∧
    (∀ rows, fetchAlerts (.ok rows) = (rows, [])) ∧
    (∀ e, fetchPolicies (.err e) = ([], ["Error fetching policies: " ++ e])) ∧
    (∀ rows, fetchPolicies (.ok rows) = (rows, [])) :=
  ⟨fun _ => rfl, fun _ => rfl, fun _ => rfl, fun _ => rfl,
   fun _ => rfl, fun _ => rfl, fun _ => rfl, fun _ => rfl⟩

/-! ## C7: write operations throw exactly on store errors -/

/-- C7: each write operation throws (its result component is `Except.error`)
exactly when the store reports an error, in which case the error is also
logged; otherwise it returns the rows reported back by the store. -/
theorem write_throws_iff_store_error :
    (∀ r e, (createProject r).1 = .error e ↔ r = .err e) ∧
    (∀ rows, createProject (.ok rows) = (.ok rows, [])) ∧
    (∀ e, (createProject (.err e)).2 = ["Error creating project: " ++ e]) ∧
    (∀ r e, (createSample r).1 = .error e ↔ r = .err e) ∧
    (∀ rows, createSample (.ok rows) = (.ok rows, [])) ∧
    (∀ e, (createSample (.err e)).2 = ["Error creating sample: " ++ e]) ∧
    (∀ r e, (createPolicy r).1 = .error e ↔ r = .err e) ∧
    (∀ rows, createPolicy (.ok rows) = (.ok rows, [])) ∧
    (∀ e, (createPolicy (.err e)).2 = ["Error creating policy: " ++ e]) ∧
    (∀ r e, (acknowledgeAlert r).1 = .error e ↔ r = .err e) ∧
    (∀ rows, acknowledgeAlert (.ok rows) = (.ok rows, [])) ∧
    (∀ e, (acknowledgeAlert (.err e)).2 =
      ["Error acknowledging alert: " ++ e]) ∧
    (∀ r e, (updateProjectThreshold r).1 = .error e ↔ r = .err e) ∧
    (∀ rows, updateProjectThreshold (.ok rows) = (.ok rows, [])) ∧
    (∀ e, (updateProjectThreshold (.err e)).2 =
      ["Error updating project threshold: " ++ e]) := by
  refine ⟨fun r e => ?_, fun _ => rfl, fun _ => rfl, fun r e => ?_,
    fun _ => rfl, fun _ => rfl, fun r e => ?_, fun _ => rfl, fun _ => rfl,
    fun r e => ?_, fun _ => rfl, fun _ => rfl, fun r e => ?_, fun _ => rfl,
    fun _ => rfl⟩ <;>
    cases r <;>
    simp [createProject, createSample, createPolicy, acknowledgeAlert,
      updateProjectThreshold, eq_comm]

/-! ## C8: acknowledgeAlert is idempotent on the store state -/

/-- C8: applying the acknowledge update twice for the same id gives the same
table as applying it once; after the update every matching alert is
acknowledged; and when every matching alert is already acknowledged the
update leaves the table unchanged (so a second call on the same id changes
nothing and signals no error). -/
theorem acknowledgeAlertState_idempotent (tbl : List Alert) (alertId : String)
    (hAck : ∀ a ∈ tbl, a.id = alertId → a.acknowledged = true) :
    acknowledgeAlertState (acknowledgeAlertState tbl alertId) alertId =
      acknowledgeAlertState tbl alertId ∧
    (∀ a ∈ acknowledgeAlertState tbl alertId, a.id = alertId →
      a.acknowledged = true) ∧
    acknowledgeAlertState tbl alertId = tbl := by
  refine ⟨?_, ?_, ?_⟩
  · rw [acknowledgeAlertState, acknowledgeAlertState, List.map_map]
    refine List.map_congr_left fun a _ => ?_
    by_cases h : a.id = alertId <;> simp [h]
  · intro a ha hid
    simp only [acknowledgeAlertState, List.mem_map] at ha
    obtain ⟨b, _, hb⟩ := ha
    by_cases h : b.id = alertId
    · simp only [h, if_pos rfl] at hb
      exact hb ▸ rfl
    · rw [if_neg h] at hb
      exact absurd (hb ▸ hid) h
  · induction tbl with
    | nil => rfl
    | cons a rest ih =>
        simp only [acknowledgeAlertState, List.map_cons] at ih ⊢
        have hrest := ih fun b hb => hAck b (List.mem_cons_of_mem a hb)
        by_cases h : a.id = alertId
        · have : a.acknowledged = true := hAck a (List.mem_cons_self a rest) h
          simp [h, hrest]
          cases a
          simp_all
        · simp [h, hrest]

/-- C8 witness: a two-row table where the matching alert is already
acknowledged; the update twice equals the update once, matching rows stay
acknowledged, and the table is unchanged. -/
theorem acknowledgeAlertState_idempotent_witness :
    acknowledgeAlertState
        (acknowledgeAlertState
          [⟨"a1", "p1", "s1", "high HMPI", .high, true, "2025-01-01"⟩,
           ⟨"a2", "p1", "s2", "note", .low, false, "2025-01-02"⟩] "a1") "a1" =
      acknowledgeAlertState
        [⟨"a1", "p1", "s1", "high HMPI", .high, true, "2025-01-01"⟩,
         ⟨"a2", "p1", "s2", "note", .low, false, "2025-01-02"⟩] "a1" :=
  (acknowledgeAlertState_idempotent
    [⟨"a1", "p1", "s1", "high HMPI", .high, true, "2025-01-01"⟩,
     ⟨"a2", "p1", "s2", "note", .low, false, "2025-01-02"⟩] "a1"
    (by decide)).1

/-! ## C9: updateProjectThreshold replaces the whole threshold object -/

/-- C9: the threshold update preserves the table length; at every position the
row keeps its id, name, description, district, city and creation time; a row
whose id matches has its entire `policyMakerThresholds` object replaced by
the given object (not merged with the old one); and a row whose id differs is
completely unchanged. -/
theorem updateProjectThresholdState_frame (tbl : List Project)
    (projectId : String) (t : ThresholdObj) (i : ℕ) (p : Project)
    (hp : tbl[i]? = some p) :
    (updateProjectThresholdState tbl projectId t).length = tbl.length ∧
    ∃ q, (updateProjectThresholdState tbl projectId t)[i]? = some q ∧
      q.id = p.id ∧ q.name = p.name ∧ q.description = p.description ∧
      q.district = p.district ∧ q.city = p.city ∧ q.createdAt = p.createdAt ∧
      (p.id = projectId → q.policyMakerThresholds = t) ∧
      (p.id ≠ projectId → q = p) := by
  refine ⟨List.length_map _ _, ?_⟩
  refine ⟨if p.id = projectId then { p with policyMakerThresholds := t }
    else p, ?_, ?_⟩
  · rw [updateProjectThresholdState, List.getElem?_map, hp]
    rfl
  · by_cases h : p.id = projectId <;>
      simp [h]

/-- C9 witness: a two-project table; the matching project gets the new
threshold object wholesale while keeping its other fields, at index 0. -/
theorem updateProjectThresholdState_frame_witness :
    ∃ q, (updateProjectThresholdState
        [⟨"p1", "Ganga", "river", "Varanasi", "Varanasi", "2025-01-01",
           [("HMPI", 50)]⟩,
         ⟨"p2", "Yamuna", "river", "Delhi", "Delhi", "2025-01-02",
           [("HMPI", 60)]⟩] "p1" [("HMPI", 75), ("lead", 40)])[0]? = some q ∧
      q.id = "p1" ∧ q.name = "Ganga" ∧ q.description = "river" ∧
      q.district = "Varanasi" ∧ q.city = "Varanasi" ∧
      q.createdAt = "2025-01-01" ∧
      ("p1" = "p1" → q.policyMakerThresholds = [("HMPI", 75), ("lead", 40)]) ∧
      ("p1" ≠ "p1" → q = ⟨"p1", "Ganga", "river", "Varanasi", "Varanasi",
        "2025-01-01", [("HMPI", 50)]⟩) :=
  (updateProjectThresholdState_frame
    [⟨"p1", "Ganga", "river", "Varanasi", "Varanasi", "2025-01-01",
       [("HMPI", 50)]⟩,
     ⟨"p2", "Yamuna", "river", "Delhi", "Delhi", "2025-01-02",
       [("HMPI", 60)]⟩] "p1" [("HMPI", 75), ("lead", 40)] 0
    ⟨"p1", "Ganga", "river", "Varanasi", "Varanasi", "2025-01-01",
      [("HMPI", 50)]⟩ rfl).2

/-! ## C3: risk distribution chart data -/

/-- Canonical color of each risk level, from the table in getRiskLevel. -/
def canonicalColor (level : String) : String :=
  if level = "Very High Risk" then "#DC2626"
  else if level = "High Risk" then "#EA580C"
  else if level = "Moderate Risk" then "#D97706"
  else if level = "Low Risk" then "#65A30D"
  else if level = "Safe" then "#059669" else "#666"

theorem getRiskLevel_color_canonical (x : JSNum) :
    (getRiskLevel x).color = canonicalColor (getRiskLevel x).level := by
  unfold getRiskLevel
  split_ifs <;> decide

/-- A sample whose index is 10, classified Low Risk. -/
def lowRiskSample : Sample :=
  ⟨"s5", "p1", "GNG-012", "Iron", 0.1, 1, 1, 0, 0,
    "Varanasi", "Varanasi", "2025-03-01"⟩

/-- C3 (amended): the risk chart data always has the five levels in the fixed
order Safe, Low Risk, Moderate Risk, High Risk, Very High Risk; each entry
counts the samples classified at its level; an entry of a level with at least
one sample carries that level's canonical color, while an entry of an empty
level carries the fallback color `#666` instead of the canonical one. -/
theorem riskChartData_spec (l : List Sample) :
    (riskChartData l).map (fun e => e.name) = riskLevels ∧
    ∀ e ∈ riskChartData l,
      e.value = riskDistribution l e.name ∧
      (0 < e.value → e.color = canonicalColor e.name) ∧
      (e.value = 0 → e.color = "#666") := by
  constructor
  · rw [riskChartData, List.map_map]
    exact List.map_id riskLevels
  · intro e he
    obtain ⟨level, hlevel, rfl⟩ := List.mem_map.mp he
    refine ⟨rfl, ?_, ?_⟩
    · intro hpos
      rw [riskDistribution] at hpos
      obtain ⟨s, hs⟩ := List.exists_mem_of_length_pos hpos
      have hfind : (((samplesWithHMPI l).find? fun s =>
          s.riskLevel.level == level)).isSome := by
        rw [List.find?_isSome]
        exact ⟨s, (List.mem_filter.mp hs).1, (List.mem_filter.mp hs).2⟩
      obtain ⟨s', hs'⟩ := Option.isSome_iff_exists.mp hfind
      have hmem : s' ∈ samplesWithHMPI l := List.mem_of_find?_eq_some hs'
      have hlev : s'.riskLevel.level = level := by
        have := List.find?_some hs'
        simpa using this
      obtain ⟨s0, _, rfl⟩ := List.mem_map.mp hmem
      show (((samplesWithHMPI l).find? fun s =>
          s.riskLevel.level == level).map fun s => s.riskLevel.color).getD
          "#666" = canonicalColor level
      rw [hs', Option.map_some', Option.getD_some, ← hlev]
      exact getRiskLevel_color_canonical _
    · intro hzero
      rw [riskDistribution, List.length_eq_zero] at hzero
      have hfind : (((samplesWithHMPI l).find? fun s =>
          s.riskLevel.level == level)) = none := by
        rw [List.find?_eq_none]
        intro s hsmem hpred
        have : s ∈ (samplesWithHMPI l).filter fun s =>
            s.riskLevel.level == level := List.mem_filter.mpr ⟨hsmem, hpred⟩
        rw [hzero] at this
        exact absurd this (List.not_mem_nil s)
      show (((samplesWithHMPI l).find? fun s =>
          s.riskLevel.level == level).map fun s => s.riskLevel.color).getD
          "#666" = "#666"
      rw [hfind, Option.map_none', Option.getD_none]

/-- C3 witness: on a one-sample list whose sample scores 10 (Low Risk), the
names are the five fixed levels and the Low Risk entry has count 1 with the
canonical Low Risk color. -/
theorem riskChartData_spec_witness :
    (riskChartData [lowRiskSample]).map (fun e => e.name) = riskLevels ∧
    riskDistribution [lowRiskSample] "Low Risk" = 1 ∧
    (⟨"Low Risk", 1, "#65A30D"⟩ : RiskChartEntry).color =
      canonicalColor "Low Risk" := by
  have hhmpi : calculateHMPI lowRiskSample = 10 := by
    norm_num [calculateHMPI, jsRound, rawIndex, lowRiskSample]
  have hrisk : getRiskLevel (.finite 10) = ⟨"Low Risk", "#65A30D"⟩ := by
    norm_num [getRiskLevel, jsGe]
  have hsw : samplesWithHMPI [lowRiskSample] =
      [⟨lowRiskSample, 10, ⟨"Low Risk", "#65A30D"⟩⟩] := by
    simp [samplesWithHMPI, hhmpi, hrisk]
  have hdist : riskDistribution [lowRiskSample] "Low Risk" = 1 := by
    simp [riskDistribution, hsw]
  have hmem : (⟨"Low Risk", 1, "#65A30D"⟩ : RiskChartEntry) ∈
      riskChartData [lowRiskSample] := by
    rw [riskChartData]
    refine List.mem_map.mpr ⟨"Low Risk", by decide, ?_⟩
    rw [hdist, hsw]
    simp
  exact ⟨(riskChartData_spec [lowRiskSample]).1,
    hdist,
    (((riskChartData_spec [lowRiskSample]).2 _ hmem).2.1 (by
      rw [((riskChartData_spec [lowRiskSample]).2 _ hmem).1, hdist]
      norm_num))⟩

/-- C3 counterexample: on the empty sample list every one of the five entries
carries the fallback color `#666`, not the canonical color of its level (the
Safe entry would have to carry `#059669`). -/
theorem riskChartData_empty_counterexample :
    riskChartData [] =
      [⟨"Safe", 0, "#666"⟩, ⟨"Low Risk", 0, "#666"⟩,
       ⟨"Moderate Risk", 0, "#666"⟩, ⟨"High Risk", 0, "#666"⟩,
       ⟨"Very High Risk", 0, "#666"⟩] ∧
    ("#666" : String) ≠ "#059669" := by
  exact ⟨rfl, by decide⟩

/-! ## C4: per-metal summary chart data -/

theorem mem_firstOccurrences {a : String} :
    ∀ {l : List String}, a ∈ firstOccurrences l ↔ a ∈ l := by
  intro l
  induction l using firstOccurrences.induct with
  | case1 => rw [firstOccurrences]
  | case2 m rest ih =>
      rw [firstOccurrences, List.mem_cons, ih, List.mem_filter, bne_iff_ne,
        List.mem_cons]
      constructor
      · rintro (rfl | ⟨h, _⟩)
        · exact Or.inl rfl
        · exact Or.inr h
      · rintro (rfl | h2)
        · exact Or.inl rfl
        · by_cases hm : a = m
          · exact Or.inl hm
          · exact Or.inr ⟨h2, hm⟩

theorem nodup_firstOccurrences : ∀ (l : List String),
    (firstOccurrences l).Nodup := by
  intro l
  induction l using firstOccurrences.induct with
  | case1 =>
      rw [firstOccurrences]
      exact List.nodup_nil
  | case2 m rest ih =>
      rw [firstOccurrences]
      refine List.nodup_cons.mpr ⟨?_, ih⟩
      intro hmem
      have h2 := mem_firstOccurrences.mp hmem
      rw [List.mem_filter, bne_iff_ne] at h2
      exact h2.2 rfl

/-- C4: the per-metal chart data has pairwise distinct metal names; its names
are exactly the metals present among the samples; and each entry counts the
samples of its metal and reports the arithmetic mean (sum divided by count)
of their computed indices. -/
theorem metalChartData_spec (l : List Sample) :
    ((metalChartData l).map (fun e => e.name)).Nodup ∧
    (∀ m, (m ∈ (metalChartData l).map fun e => e.name) ↔
      m ∈ l.map fun s => s.metal) ∧
    ∀ e ∈ metalChartData l,
      e.count = (l.filter fun s => s.metal == e.name).length ∧
      e.avgHMPI = ((l.filter fun s => s.metal == e.name).map calculateHMPI).sum /
        ((l.filter fun s => s.metal == e.name).length : ℚ) := by
  have hnames : (metalChartData l).map (fun e => e.name) =
      firstOccurrences ((samplesWithHMPI l).map fun s => s.sample.metal) := by
    rw [metalChartData, List.map_map]
    exact List.map_id _
  have hmetals : ((samplesWithHMPI l).map fun s => s.sample.metal) =
      l.map fun s => s.metal := by
    rw [samplesWithHMPI, List.map_map]
    exact List.map_congr_left fun s _ => rfl
  refine ⟨?_, ?_, ?_⟩
  · rw [hnames]
    exact nodup_firstOccurrences _
  · intro m
    rw [hnames, mem_firstOccurrences, hmetals]
  · intro e he
    obtain ⟨m, hm, rfl⟩ := List.mem_map.mp he
    have hgrp : ((samplesWithHMPI l).filter fun s => s.sample.metal == m) =
        (l.filter fun s => s.metal == m).map fun s =>
          (⟨s, calculateHMPI s, getRiskLevel (.finite (calculateHMPI s))⟩ :
            ScoredSample) := by
      rw [samplesWithHMPI, List.filter_map]
      rfl
    constructor
    · show ((samplesWithHMPI l).filter fun s => s.sample.metal == m).length = _
      rw [hgrp, List.length_map]
    · show (((samplesWithHMPI l).filter fun s =>
          s.sample.metal == m).map fun s => s.hmpi).sum /
          ((((samplesWithHMPI l).filter fun s =>
            s.sample.metal == m)).length : ℚ) = _
      rw [hgrp, List.map_map, List.length_map]
      rfl

/-- First of the two Lead samples of the spec example, with index 10. -/
def leadSample10 : Sample :=
  ⟨"s6", "p1", "GNG-013", "Lead", 0.1, 1, 1, 0, 0,
    "Varanasi", "Varanasi", "2025-04-01"⟩

/-- Second of the two Lead samples of the spec example, with index 20. -/
def leadSample20 : Sample :=
  ⟨"s7", "p1", "GNG-014", "Lead", 0.2, 1, 1, 0, 0,
    "Varanasi", "Varanasi", "2025-04-02"⟩

/-- C4 witness: for the two Lead samples with indices 10 and 20 the Lead
entry is in the chart data and the theorem yields count 2 and average 15. -/
theorem metalChartData_spec_witness :
    (⟨"Lead", 2, 15⟩ : MetalChartEntry).count =
      ([leadSample10, leadSample20].filter fun s => s.metal == "Lead").length ∧
    (⟨"Lead", 2, 15⟩ : MetalChartEntry).avgHMPI =
      (([leadSample10, leadSample20].filter fun s =>
        s.metal == "Lead").map calculateHMPI).sum /
        ((([leadSample10, leadSample20].filter fun s =>
          s.metal == "Lead")).length : ℚ) := by
  have hc1 : calculateHMPI leadSample10 = 10 := by
    norm_num [calculateHMPI, jsRound, rawIndex, leadSample10]
  have hc2 : calculateHMPI leadSample20 = 20 := by
    norm_num [calculateHMPI, jsRound, rawIndex, leadSample20]
  have hmem : (⟨"Lead", 2, 15⟩ : MetalChartEntry) ∈
      metalChartData [leadSample10, leadSample20] := by
    rw [metalChartData]
    refine List.mem_map.mpr ⟨"Lead", ?_, ?_⟩
    · refine mem_firstOccurrences.mpr ?_
      simp [samplesWithHMPI, leadSample10, leadSample20]
    · have hfilter : ((samplesWithHMPI [leadSample10, leadSample20]).filter
          fun s => s.sample.metal == "Lead") =
          samplesWithHMPI [leadSample10, leadSample20] := by
        rw [List.filter_eq_self]
        intro s hs
        rw [samplesWithHMPI] at hs
        rcases List.mem_map.mp hs with ⟨s0, hs0, rfl⟩
        simp only [List.mem_cons, List.not_mem_nil, or_false] at hs0
        rcases hs0 with rfl | rfl <;> decide
      show (⟨"Lead", _, _⟩ : MetalChartEntry) = _
      rw [hfilter, samplesWithHMPI]
      simp [hc1, hc2]
      norm_num
  have := (metalChartData_spec [leadSample10, leadSample20]).2.2 _ hmem
  exact this

/-! ## C5: time series -/

/-- The boolean comparator of the time series sort: date key order. -/
def scoredLe (a b : ScoredSample) : Bool :=
  decide (dateKey a.sample.date ≤ dateKey b.sample.date)

theorem scoredLe_trans (a b c : ScoredSample) (h1 : scoredLe a b)
    (h2 : scoredLe b c) : scoredLe a c := by
  simp only [scoredLe, decide_eq_true_eq] at h1 h2 ⊢
  exact le_trans h1 h2

theorem scoredLe_total (a b : ScoredSample) : scoredLe a b || scoredLe b a := by
  simp only [scoredLe, Bool.or_eq_true, decide_eq_true_eq]
  exact le_total _ _

/-- Sample of the spec example dated 2025-01-01, with index 10. -/
def janSample : Sample :=
  ⟨"s8", "p1", "GNG-015", "Lead", 0.1, 1, 1, 0, 0,
    "Varanasi", "Varanasi", "2025-01-01"⟩

/-- Sample of the spec example dated 2025-02-01, with index 20. -/
def febSample : Sample :=
  ⟨"s9", "p1", "GNG-016", "Lead", 0.2, 1, 1, 0, 0,
    "Varanasi", "Varanasi", "2025-02-01"⟩

/-- C5: the time series is ascending in the parsed date key; it is stable:
for every date key, the subsequence of points at that key is exactly the
projection of the input samples at that key in their original order; and the
spec example list dated [2025-02-01, 2025-01-01] comes out swapped into
ascending order. -/
theorem timeSeriesData_spec (l : List Sample) :
    (timeSeriesData l).Pairwise
      (fun p q => dateKey p.date ≤ dateKey q.date) ∧
    (∀ k : ℤ, ((timeSeriesData l).filter fun p => dateKey p.date == k) =
      (((samplesWithHMPI l).filter fun s => dateKey s.sample.date == k).map
        fun s => (⟨s.sample.date, s.hmpi⟩ : TimePoint))) ∧
    timeSeriesData [febSample, janSample] =
      [⟨"2025-01-01", 10⟩, ⟨"2025-02-01", 20⟩] := by
  refine ⟨?_, ?_, ?_⟩
  · rw [timeSeriesData]
    rw [List.pairwise_map]
    have hs := List.sorted_mergeSort scoredLe_trans scoredLe_total
      (samplesWithHMPI l)
    exact hs.imp fun h => by simpa [scoredLe] using h
  · intro k
    have key : (((samplesWithHMPI l).mergeSort scoredLe).filter fun s =>
        dateKey s.sample.date == k) =
        ((samplesWithHMPI l).filter fun s => dateKey s.sample.date == k) := by
      set L := samplesWithHMPI l with hL
      set B := L.filter (fun s => dateKey s.sample.date == k) with hB
      have hBL : List.Sublist B L := List.filter_sublist L
      have hBpair : B.Pairwise fun a b => scoredLe a b := by
        refine List.pairwise_of_forall_mem_list fun a ha b hb => ?_
        rw [hB] at ha hb
        have ha2 := (List.mem_filter.mp ha).2
        have hb2 := (List.mem_filter.mp hb).2
        simp only [beq_iff_eq] at ha2 hb2
        simp [scoredLe, ha2, hb2]
      have hBsub : List.Sublist B (L.mergeSort scoredLe) :=
        List.sublist_mergeSort scoredLe_trans scoredLe_total hBpair hBL
      have hBsub2 : List.Sublist B ((L.mergeSort scoredLe).filter fun s =>
          dateKey s.sample.date == k) := by
        have h2 := hBsub.filter (fun s => dateKey s.sample.date == k)
        have h3 : B.filter (fun s => dateKey s.sample.date == k) = B := by
          rw [hB, List.filter_filter]
          exact List.filter_congr fun s _ => by
            cases h : dateKey s.sample.date == k <;> simp [h]
        rwa [h3] at h2
      have hlen : ((L.mergeSort scoredLe).filter fun s =>
          dateKey s.sample.date == k).length = B.length :=
        ((List.mergeSort_perm L scoredLe).filter _).length_eq
      exact (hBsub2.eq_of_length hlen.symm).symm
    rw [timeSeriesData, List.filter_map]
    show ((((samplesWithHMPI l).mergeSort scoredLe).filter fun s =>
      dateKey s.sample.date == k).map fun s =>
        (⟨s.sample.date, s.hmpi⟩ : TimePoint)) = _
    rw [key]
  · have hj : calculateHMPI janSample = 10 := by
      norm_num [calculateHMPI, jsRound, rawIndex, janSample]
    have hf : calculateHMPI febSample = 20 := by
      norm_num [calculateHMPI, jsRound, rawIndex, febSample]
    have hkj : dateKey "2025-01-01" = 20250101 := by decide
    have hkf : dateKey "2025-02-01" = 20250201 := by decide
    have hsort : ([(⟨febSample, 20, getRiskLevel (.finite 20)⟩ : ScoredSample),
        ⟨janSample, 10, getRiskLevel (.finite 10)⟩].mergeSort fun a b =>
          decide (dateKey a.sample.date ≤ dateKey b.sample.date)) =
        [⟨janSample, 10, getRiskLevel (.finite 10)⟩,
         ⟨febSample, 20, getRiskLevel (.finite 20)⟩] := by
      simp [List.mergeSort, List.merge, janSample, febSample, hkj, hkf]
    rw [timeSeriesData, samplesWithHMPI]
    simp only [List.map_cons, List.map_nil, hj, hf]
    rw [hsort]
    simp [janSample, febSample]

end Hopes
